import Mathlib

/-!
Verification of the node-drain coordination core of the sriov-network-operator
repository: the drain event filter (controllers/helper.go), the node
annotation writer (pkg/utils/cluster.go), the per-node config daemon
(pkg/daemon/daemon.go), the vendor plugins (pkg/plugins/generic,
pkg/vendors/mellanox) and the drain coordinator state machine.

Go maps of annotations are embedded as association lists, fallible calls as
Option results, and the daemon's side effects as an explicit effect trace.
-/

namespace SriovDrain

/-! ## Annotation maps

A Go `map[string]string` of object annotations, embedded as an association
list: lookup returns the first binding, set replaces the first binding of the
key or appends a new one. -/

/-- Lookup of an annotation key; `none` plays the role of the Go
`(value, ok)` pair with `ok = false`. -/
def getAnno : List (String × String) → String → Option String
  | [], _ => none
  | p :: rest, k => if p.1 = k then some p.2 else getAnno rest k

/-- `m[k] = v` on a Go map: replace the first binding of `k` or append. -/
def setAnno : List (String × String) → String → String → List (String × String)
  | [], k, v => [(k, v)]
  | p :: rest, k, v => if p.1 = k then (k, v) :: rest else p :: setAnno rest k v

/-! ## Handshake identifiers

Modelled from the spec: the `pkg/consts` package is not under src/.  The spec
fixes the two annotation keys and the handshake values as stable bit-exact
string identifiers (spec section 6); only their identity and distinctness
matter to the claims.  The Lean names drop the word "Annotation" from the two
key constants but otherwise follow the source names. -/

def NodeDrainAnnoKey : String := "sriovnetwork.openshift.io/state"

def NodeStateDrainAnnoCurrent : String := "sriovnetwork.openshift.io/current-state"

def DrainIdle : String := "Idle"

def DrainRequired : String := "Drain_Required"

def RebootRequired : String := "Reboot_Required"

def Draining : String := "Draining"

def DrainMcpPaused : String := "Draining_MCP_Paused"

def DrainComplete : String := "DrainComplete"

/-! ## Node objects

The fields of a Kubernetes Node the verified code reads or writes: metadata
annotations and labels, `spec.unschedulable`, and a summary of the status
fields (whose content the code never touches). -/

structure K8Node where
  name : String
  annos : List (String × String)
  labels : List (String × String)
  unschedulable : Bool
  status : List (String × String)
  deriving DecidableEq

/-! ## Drain event filter (controllers/helper.go) -/

/-- `DrainAnnotationPredicate.Create`: a nil object is rejected; otherwise the
event is accepted iff the node carries the drain request annotation key. -/
def drainPredCreate (obj : Option K8Node) : Bool :=
  match obj with
  | none => false
  | some o => (getAnno o.annos NodeDrainAnnoKey).isSome

/-- `DrainAnnotationPredicate.Update`: a nil old or new object is rejected; if
either side lacks the request annotation the event is rejected; otherwise the
event is accepted iff the two values differ. -/
def drainPredUpdate (objOld objNew : Option K8Node) : Bool :=
  match objOld with
  | none => false
  | some o =>
    match objNew with
    | none => false
    | some n =>
      match getAnno o.annos NodeDrainAnnoKey, getAnno n.annos NodeDrainAnnoKey with
      | some oldA, some newA => oldA != newA
      | _, _ => false

/-- The spec's wording for Node update events, for comparison with the code:
accept iff the request annotation's value changed, including transitions
between present and absent. -/
def specUpdateAccepts (o n : K8Node) : Bool :=
  getAnno o.annos NodeDrainAnnoKey != getAnno n.annos NodeDrainAnnoKey

/-! ## AnnotateNode (pkg/utils/cluster.go)

`AnnotateNode` fetches the node, deep-copies it, and only when the observed
drain annotation (read as the empty string when absent, as a Go map read
does) differs from the desired value does it set the annotation and submit a
strategic-merge patch.  The embedding returns the node as left in the store
together with a flag recording whether a patch was issued. -/

def annotateNode (oldNode : K8Node) (value : String) : K8Node × Bool :=
  if ((getAnno oldNode.annos NodeDrainAnnoKey).getD "") ≠ value then
    ({ oldNode with annos := setAnno oldNode.annos NodeDrainAnnoKey value }, true)
  else
    (oldNode, false)

/-! ## Per-node config daemon (pkg/daemon/daemon.go)

`Daemon.nodeStateSyncHandler` is embedded as a pure function from the branch
conditions and fallible-call outcomes it consults (in program order) to the
ordered trace of side effects it performs, plus an error flag.  The handler
is split, following its linear structure, into the part before the drain
gate, the gate itself, and the part after the gate. -/

def syncStatusSucceeded : String := "Succeeded"

def syncStatusFailed : String := "Failed"

def syncStatusInProgress : String := "InProgress"

def GenericPluginName : String := "generic_plugin"

def VirtualPluginName : String := "virtual_plugin"

/-- The kind of API object an annotation write targets. -/
inductive ObjKind
  | node
  | nodeState
  deriving DecidableEq

/-- The observable side effects of one `nodeStateSyncHandler` pass.
`annotate` records a `utils.AnnotateNode` call (object kind, key, value);
`pushSyncStatus` records a message sent to the status writer. -/
inductive Effect
  | annotate (obj : ObjKind) (key value : String)
  | clearPCIFolder
  | applyVendorPlugin (pname : String)
  | writeSystemdConf
  | removeSriovResult
  | writeSupportedNics
  | applyGeneric
  | applyVirtual
  | sendEventReboot
  | rebootNode
  | restartDevicePlugin
  | pushSyncStatus (status : String)
  deriving DecidableEq

/-- One enabled vendor plugin as the sync handler sees it: its name, the
result of `OnNodeStateChange` (`none` models a returned error, `some (d, r)`
the need-drain/need-reboot pair), and whether its `Apply` call fails. -/
structure PluginSim where
  pname : String
  onChange : Option (Bool × Bool)
  applyFails : Bool
  deriving DecidableEq

/-- The environment of one `nodeStateSyncHandler` pass: every branch
condition and fallible call outcome the handler consults, in program order.
`grantAnno` is the value of the `NodeStateDrainAnnoCurrent` annotation on the
fetched SriovNetworkNodeState (`none` when the key is absent). -/
structure SyncInput where
  fetchFails : Bool
  generationUnchanged : Bool
  grantAnno : Option String
  useSystemd : Bool
  serviceEnabled : Option Bool
  sriovResult : Option (String × String)
  statusSyncStatus : String
  statusLastSyncError : String
  genOneNoIfaces : Bool
  clearPCIFails : Bool
  refetchFails : Bool
  pluginsEmpty : Bool
  enablePluginsFails : Bool
  plugins : List PluginSim
  writeConf : Option Bool
  removeResultFails : Bool
  writeSupportedNicsFails : Bool
  disableDrain : Bool
  annotateFails : Bool
  restartDevicePluginFails : Bool
  deriving DecidableEq

/-- The result of a handler pass: its effect trace and whether it returned an
error. -/
structure SyncOut where
  effects : List Effect
  isError : Bool
  deriving DecidableEq

/-- The `OnNodeStateChange` loop over the enabled plugins: the per-plugin
drain/reboot requirements are or-accumulated; the first plugin error aborts
the handler. -/
def pluginScan : List PluginSim → Bool → Bool → Option (Bool × Bool)
  | [], d, r => some (d, r)
  | p :: rest, d, r =>
    match p.onChange with
    | none => none
    | some pr => pluginScan rest (d || pr.1) (r || pr.2)

/-- The common exit of the "interface not changed" early branch: refresh the
sync status to Succeeded when it is not already recorded as such. -/
def notChangedExit (i : SyncInput) : SyncOut :=
  if i.statusLastSyncError != "" || i.statusSyncStatus != syncStatusSucceeded then
    ⟨[Effect.pushSyncStatus syncStatusSucceeded], false⟩
  else ⟨[], false⟩

/-- The systemd-mode configuration stage: write the config file (abort on
error), remove a stale result file when the config changed, or the modified
flag into the drain/reboot requirements, and write the supported-NICs file. -/
def systemdStage (i : SyncInput) (effs : List Effect) (d r : Bool) :
    SyncOut ⊕ (List Effect × Bool × Bool) :=
  if i.useSystemd then
    match i.writeConf with
    | none => Sum.inl ⟨effs ++ [Effect.writeSystemdConf], true⟩
    | some modified =>
      let effs1 := effs ++ [Effect.writeSystemdConf]
      let cont := fun (effs2 : List Effect) =>
        if i.writeSupportedNicsFails then
          Sum.inl (⟨effs2 ++ [Effect.writeSupportedNics], true⟩ : SyncOut)
        else Sum.inr (effs2 ++ [Effect.writeSupportedNics], d || modified, r || modified)
      if modified then
        if i.removeResultFails then Sum.inl ⟨effs1 ++ [Effect.removeSriovResult], true⟩
        else cont (effs1 ++ [Effect.removeSriovResult])
      else cont effs1
  else Sum.inr (effs, d, r)

/-- The pre-gate vendor `Apply` loop: every enabled plugin except the generic
and the virtual one is applied; the first failure aborts the handler. -/
def vendorApply : List PluginSim → List Effect × Bool
  | [] => ([], false)
  | p :: rest =>
    if p.pname == GenericPluginName || p.pname == VirtualPluginName then vendorApply rest
    else if p.applyFails then ([Effect.applyVendorPlugin p.pname], true)
    else
      let tail := vendorApply rest
      (Effect.applyVendorPlugin p.pname :: tail.1, tail.2)

/-- The main stage of `nodeStateSyncHandler`, reached when the generation
changed (or the grant is DrainComplete) and an interface policy exists:
report InProgress, re-fetch the state, load and consult the plugins, run the
systemd stage, and apply the non-generic vendor plugins. -/
def mainStage (i : SyncInput) : SyncOut ⊕ (List Effect × Bool × Bool) :=
  let effs0 : List Effect := [Effect.pushSyncStatus syncStatusInProgress]
  if i.refetchFails then Sum.inl ⟨effs0, true⟩
  else if i.pluginsEmpty && i.enablePluginsFails then Sum.inl ⟨effs0, true⟩
  else
    match pluginScan i.plugins false false with
    | none => Sum.inl ⟨effs0, true⟩
    | some dr =>
      match systemdStage i effs0 dr.1 dr.2 with
      | Sum.inl out => Sum.inl out
      | Sum.inr st =>
        let va := vendorApply i.plugins
        if va.2 then Sum.inl ⟨st.1 ++ va.1, true⟩
        else Sum.inr (st.1 ++ va.1, st.2.1, st.2.2)

/-- `nodeStateSyncHandler` up to the drain gate: either an early return
(`Sum.inl`), or the effect trace so far together with the aggregated
drain/reboot requirements (`Sum.inr`). -/
def preGate (i : SyncInput) : SyncOut ⊕ (List Effect × Bool × Bool) :=
  if i.fetchFails then Sum.inl ⟨[], true⟩
  else if i.generationUnchanged && !(i.grantAnno == some DrainComplete) then
    if i.useSystemd then
      match i.serviceEnabled with
      | none => Sum.inl ⟨[], true⟩
      | some en =>
        if !en then Sum.inl ⟨[Effect.pushSyncStatus syncStatusFailed], false⟩
        else
          match i.sriovResult with
          | none => Sum.inl ⟨[], true⟩
          | some res =>
            if res.2 != "" || res.1 == syncStatusFailed then
              Sum.inl ⟨[Effect.pushSyncStatus syncStatusFailed], false⟩
            else Sum.inl (notChangedExit i)
    else Sum.inl (notChangedExit i)
  else if i.genOneNoIfaces then
    if i.clearPCIFails then Sum.inl ⟨[Effect.clearPCIFolder], true⟩
    else if i.statusSyncStatus != syncStatusSucceeded then
      Sum.inl ⟨[Effect.clearPCIFolder, Effect.pushSyncStatus syncStatusSucceeded], false⟩
    else Sum.inl ⟨[Effect.clearPCIFolder], false⟩
  else mainStage i

/-- What the drain gate decides. -/
inductive GateDecision
  | proceed
  | wait
  | wroteRequired
  deriving DecidableEq

/-- `Daemon.isNodeDraining`: the grant annotation on the NodeState is
Draining or Draining_MCP_Paused. -/
def isNodeDraining (i : SyncInput) : Bool :=
  i.grantAnno == some Draining || i.grantAnno == some DrainMcpPaused

/-- The drain gate of `nodeStateSyncHandler`: entered when a drain is
required or the grant annotation is present and not DrainIdle.  A
DrainComplete grant falls through; a node not yet draining has
`Drain_Required` written to its Node (unless draining is disabled, in which
case the handler falls through); a draining node makes the handler return
and wait. -/
def drainGate (i : SyncInput) (reqDrain : Bool) : GateDecision :=
  if reqDrain || (i.grantAnno.isSome && !(i.grantAnno == some DrainIdle)) then
    if i.grantAnno == some DrainComplete then GateDecision.proceed
    else if !(isNodeDraining i) then
      if !i.disableDrain then GateDecision.wroteRequired
      else GateDecision.proceed
    else GateDecision.wait
  else GateDecision.proceed

/-- The generic and virtual plugin `Apply` calls performed after the drain
gate when no reboot is required and systemd mode is off. -/
def applyFinalPlugins (i : SyncInput) : List Effect × Bool :=
  match i.plugins.find? (fun p => p.pname == GenericPluginName) with
  | some p =>
    if p.applyFails then ([Effect.applyGeneric], true)
    else
      match i.plugins.find? (fun q => q.pname == VirtualPluginName) with
      | some q =>
        if q.applyFails then ([Effect.applyGeneric, Effect.applyVirtual], true)
        else ([Effect.applyGeneric, Effect.applyVirtual], false)
      | none => ([Effect.applyGeneric], false)
  | none =>
    match i.plugins.find? (fun q => q.pname == VirtualPluginName) with
    | some q =>
      if q.applyFails then ([Effect.applyVirtual], true)
      else ([Effect.applyVirtual], false)
    | none => ([], false)

/-- `nodeStateSyncHandler` after the drain gate: apply the generic/virtual
plugins (unless rebooting or in systemd mode), reboot if required, otherwise
restart the device plugin pod, annotate the Node back to `Idle`, and report
success. -/
def postGate (i : SyncInput) (reqReboot : Bool) : SyncOut :=
  let fin : List Effect × Bool :=
    if !reqReboot && !i.useSystemd then applyFinalPlugins i else ([], false)
  if fin.2 then ⟨fin.1, true⟩
  else if reqReboot then ⟨fin.1 ++ [Effect.sendEventReboot, Effect.rebootNode], false⟩
  else
    let effs1 := fin.1 ++ [Effect.restartDevicePlugin]
    if i.restartDevicePluginFails then ⟨effs1, true⟩
    else
      let effs2 := effs1 ++ [Effect.annotate ObjKind.node NodeDrainAnnoKey DrainIdle]
      if i.annotateFails then ⟨effs2, true⟩
      else ⟨effs2 ++ [Effect.pushSyncStatus syncStatusSucceeded], false⟩

/-- One full `nodeStateSyncHandler` pass. -/
def nodeStateSyncHandler (i : SyncInput) : SyncOut :=
  match preGate i with
  | Sum.inl out => out
  | Sum.inr st =>
    match drainGate i st.2.1 with
    | GateDecision.wait => ⟨st.1, false⟩
    | GateDecision.wroteRequired =>
      ⟨st.1 ++ [Effect.annotate ObjKind.node NodeDrainAnnoKey DrainRequired], i.annotateFails⟩
    | GateDecision.proceed =>
      let out := postGate i st.2.2
      ⟨st.1 ++ out.effects, out.isError⟩

/-- An effect respects the agent-side single-writer discipline: any
annotation write targets the Node object, the request annotation key, and
one of the two request values the daemon owns. -/
def writeOk : Effect → Bool
  | Effect.annotate ObjKind.node k v =>
    k == NodeDrainAnnoKey && (v == DrainRequired || v == DrainIdle)
  | Effect.annotate ObjKind.nodeState _ _ => false
  | _ => true

/-- An effect that is not an annotation write at all. -/
def noAnnoWrite : Effect → Bool
  | Effect.annotate _ _ _ => false
  | _ => true

/-- The effect trace of a stage result, whether it returned early or fell
through. -/
def sideEffects : SyncOut ⊕ (List Effect × Bool × Bool) → List Effect
  | Sum.inl o => o.effects
  | Sum.inr st => st.1

/-- A sync pass in which the plugins require a drain, draining is disabled,
and the grant annotation is DrainIdle. -/
def disableDrainInput : SyncInput :=
  ⟨false, false, some DrainIdle, false, some true, some (syncStatusSucceeded, ""),
    syncStatusSucceeded, "", false, false, false, false, false,
    [⟨GenericPluginName, some (true, false), false⟩], some false, false, false,
    true, false, false⟩

/-- A sync pass in which the plugins require a drain and the grant
annotation is Draining, with draining enabled. -/
def waitingInput : SyncInput :=
  ⟨false, false, some Draining, false, some true, some (syncStatusSucceeded, ""),
    syncStatusSucceeded, "", false, false, false, false, false,
    [⟨GenericPluginName, some (true, false), false⟩], some false, false, false,
    false, false, false⟩

/-! ## Vendor plugins (pkg/plugins/generic/generic_plugin.go and the
mellanox plugin)

`OnNodeStateChange` of both plugins is embedded with its helper calls
abstracted into oracle inputs (they read kernel arguments, firmware data and
host files); the control flow combining their results is taken from the
source.  Results are `(needDrain, needReboot, isErr)` triples. -/

/-- `GenericPlugin.needRebootNode`: combines the update flags of
`syncDesiredKernelArgs` and `utils.WriteSwitchdevConfFile` (`none` models a
returned error, which the caller propagates with `needReboot = false`). -/
def needRebootNode (syncKargsRes writeSwitchdevRes : Option Bool) : Option Bool :=
  match syncKargsRes with
  | none => none
  | some u1 =>
    match writeSwitchdevRes with
    | none => none
    | some u2 => some (u1 || u2)

/-- `GenericPlugin.OnNodeStateChange`: `needDrainRes` abstracts the result
of `needDrainNode` on the input state; on a `needRebootNode` error the pair
computed so far is returned with the error; otherwise a required reboot
forces `needDrain`. -/
def genericOnNodeStateChange (needDrainRes : Bool)
    (syncKargsRes writeSwitchdevRes : Option Bool) : Bool × Bool × Bool :=
  match needRebootNode syncKargsRes writeSwitchdevRes with
  | none => (needDrainRes, false, true)
  | some r => (if r then true else needDrainRes, r, false)

/-- The oracle outcomes of one iteration of the mellanox per-NIC loop:
`GetMlxNicFwData` error, the reboot/no-reboot change flags of
`HandleTotalVfs` and `HandleEnableSriov`, the `ExternallyManaged` flag of the
interface spec, and the `HandleLinkType` result (`none` models an error). -/
structure MlxNicStep where
  fwDataErr : Bool
  totalVfsReboot : Bool
  totalVfsChangeNoReboot : Bool
  sriovEnReboot : Bool
  sriovEnChangeNoReboot : Bool
  externallyManaged : Bool
  linkTypeRes : Option Bool
  deriving DecidableEq

/-- How the mellanox per-NIC loop ends: normally with the needReboot value
of its last iteration, or with an early error return. -/
inductive MlxLoopResult
  | done (needReboot : Bool)
  | earlyReturn (needDrain needReboot : Bool)
  deriving DecidableEq

/-- The mellanox per-NIC loop of `OnNodeStateChange`: `needReboot` is
reassigned by each iteration from `HandleTotalVfs`, or-ed with the
`HandleEnableSriov` and `HandleLinkType` flags; a firmware-data or link-type
error returns `(false, false, err)`, and a required TotalVfs change on an
externally managed interface returns `(true, true, err)`. -/
def mlxLoopRun : List MlxNicStep → Bool → MlxLoopResult
  | [], nr => MlxLoopResult.done nr
  | step :: rest, _ =>
    if step.fwDataErr then MlxLoopResult.earlyReturn false false
    else if step.externallyManaged && (step.totalVfsReboot || step.sriovEnReboot) then
      MlxLoopResult.earlyReturn true true
    else
      match step.linkTypeRes with
      | none => MlxLoopResult.earlyReturn false false
      | some link =>
        mlxLoopRun rest ((step.totalVfsReboot || step.sriovEnReboot) || link)

/-- `MellanoxPlugin.OnNodeStateChange`: in kernel lockdown mode the call
fails when any mellanox interface is in the spec and otherwise does nothing;
else the per-NIC loop runs, the trailing zero-TotalVfs loop may fail
(`zeroVfsErr`), and finally a required reboot forces `needDrain`. -/
def mellanoxOnNodeStateChange (lockdown specNonEmpty : Bool)
    (steps : List MlxNicStep) (zeroVfsErr : Bool) : Bool × Bool × Bool :=
  if lockdown then
    if specNonEmpty then (false, false, true) else (false, false, false)
  else
    match mlxLoopRun steps false with
    | MlxLoopResult.earlyReturn d r => (d, r, true)
    | MlxLoopResult.done nr =>
      if zeroVfsErr then (false, false, true)
      else (if nr then true else false, nr, false)

/-! ## Drain coordinator (spec-modelled)

Modelled from the spec: the drain coordinator reconciler
(controllers/drain_controller.go) is not under src/ — only its tests are —
so the pool-aware admission and per-node state machine of spec sections 4.1
and 4.3-4.4 are modelled here from the spec's words.  The agent owns the
request annotation; the coordinator writes only the grant annotation and
`spec.unschedulable`; one `Reconcile(nodeName)` reads the whole fleet, counts
the nodes of the target's pool whose grant occupies a drain slot, and admits
a drain request only strictly below the pool's MaxUnavailable (an unset
MaxUnavailable means no cap). -/

/-- The request annotation values the agent writes (`none` = absent). -/
inductive Request
  | reqIdle
  | reqDrain
  | reqReboot
  deriving DecidableEq

/-- The grant annotation values the coordinator writes (the transient
DrainRequired grant is elided, as spec section 4.3 allows). -/
inductive Grant
  | idle
  | draining
  | mcpPaused
  | complete
  deriving DecidableEq

/-- A cluster node as the coordinator sees it: name, resolved pool, the
agent's request annotation, the coordinator's grant annotation on the paired
NodeState, and `spec.unschedulable`. -/
structure CNode where
  name : String
  pool : String
  request : Option Request
  grant : Grant
  unschedulable : Bool
  deriving DecidableEq

/-- Outcomes of the external calls one reconcile may make: whether the
platform signalled the machine-config pool paused, whether beforeDrain is
ready and the Drainer reports completion, and whether completeDrain reports
ready. -/
structure Oracle where
  poolPaused : Bool
  drainDone : Bool
  completeReady : Bool
  deriving DecidableEq

/-- Does a request annotation value ask for a drain. -/
def requestsDrain : Option Request → Bool
  | some Request.reqDrain => true
  | some Request.reqReboot => true
  | _ => false

/-- Grants that occupy a drain slot (spec section 4.4 step 5). -/
def drainSet : Grant → Bool
  | Grant.draining => true
  | Grant.mcpPaused => true
  | Grant.complete => true
  | Grant.idle => false

/-- Number of nodes of pool `p` holding a drain slot. -/
def drainCount (s : List CNode) (p : String) : Nat :=
  s.countP (fun n => (n.pool == p) && drainSet n.grant)

/-- The admission check: an unset MaxUnavailable admits unconditionally, a
cap `m` admits while strictly fewer than `m` nodes of the pool hold a
slot. -/
def admitOk (caps : String → Option Nat) (s : List CNode) (p : String) : Bool :=
  match caps p with
  | none => true
  | some m => drainCount s p < m

/-- The per-node transition of one reconcile (spec section 4.4 steps 4-6):
the new grant and unschedulable flag from the request, the old grant, the
old flag, the admission verdict and the call outcomes. -/
def stepGU (adm : Bool) (o : Oracle) (r : Option Request) (g : Grant) (u : Bool) :
    Grant × Bool :=
  if requestsDrain r then
    match g with
    | Grant.idle =>
      if adm then
        ((if o.poolPaused then Grant.mcpPaused else Grant.draining), true)
      else (g, u)
    | Grant.draining => if o.drainDone then (Grant.complete, u) else (g, u)
    | Grant.mcpPaused => if o.drainDone then (Grant.complete, u) else (g, u)
    | Grant.complete => (g, u)
  else
    if drainSet g then ((if o.completeReady then Grant.idle else g), false)
    else (g, false)

/-- Apply the transition to a node: only the grant and the unschedulable
flag are written. -/
def applyStep (adm : Bool) (o : Oracle) (n : CNode) : CNode :=
  { n with
    grant := (stepGU adm o n.request n.grant n.unschedulable).1,
    unschedulable := (stepGU adm o n.request n.grant n.unschedulable).2 }

/-- First node with the given name. -/
def findNode : List CNode → String → Option CNode
  | [], _ => none
  | n :: rest, nm => if n.name = nm then some n else findNode rest nm

/-- Rewrite the first node with the given name through `f`. -/
def updateNode : List CNode → String → (CNode → CNode) → List CNode
  | [], _, _ => []
  | n :: rest, nm, f => if n.name = nm then f n :: rest else n :: updateNode rest nm f

/-- One `Reconcile(nodeName)` invocation (spec section 4.4): fetch the node
(a missing node is a no-op), evaluate admission on the live fleet state, and
apply the per-node transition. -/
def reconcile (caps : String → Option Nat) (s : List CNode) (nm : String) (o : Oracle) :
    List CNode :=
  match findNode s nm with
  | none => s
  | some n => updateNode s nm (applyStep (admitOk caps s n.pool) o)

/-- An event of a run: a reconcile of one node, or the agent of one node
rewriting its own request annotation. -/
inductive Act
  | recEv (nm : String) (o : Oracle)
  | setReq (nm : String) (r : Option Request)
  deriving DecidableEq

/-- The node an event concerns. -/
def actName : Act → String
  | Act.recEv nm _ => nm
  | Act.setReq nm _ => nm

/-- Whether an event's completeDrain hook (if any) reports ready. -/
def actReady : Act → Bool
  | Act.recEv _ o => o.completeReady
  | Act.setReq _ _ => true

/-- Apply one event. -/
def applyAct (caps : String → Option Nat) (s : List CNode) : Act → List CNode
  | Act.recEv nm o => reconcile caps s nm o
  | Act.setReq nm r => updateNode s nm (fun n => { n with request := r })

/-- Run a sequence of events. -/
def runActs (caps : String → Option Nat) (s : List CNode) : List Act → List CNode
  | [] => s
  | a :: rest => runActs caps (applyAct caps s a) rest

/-- The concurrency-cap invariant of spec section 8 for every capped pool. -/
def capOk (caps : String → Option Nat) (s : List CNode) : Prop :=
  ∀ p m, caps p = some m → drainCount s p ≤ m

/-- Every pool capped at one slot. -/
def capsOne : String → Option Nat := fun _ => some 1

/-- No pool capped (unset MaxUnavailable everywhere). -/
def capsNone : String → Option Nat := fun _ => none

/-- An oracle for an admission step: platform not paused, drainer not yet
done, completeDrain ready. -/
def oAdmit : Oracle := ⟨false, false, true⟩

/-- An oracle for a completion step: drainer done, completeDrain ready. -/
def oDone : Oracle := ⟨false, true, true⟩

/-- Two idle nodes of the default pool both requesting a drain. -/
def twoNodes : List CNode :=
  [⟨"node1", "default", some Request.reqDrain, Grant.idle, false⟩,
   ⟨"node2", "default", some Request.reqDrain, Grant.idle, false⟩]

/-- The fleet state after node1 was admitted and completed its drain while
node2 still asks: the single default-pool slot is taken. -/
def saturatedState : List CNode :=
  [⟨"node1", "default", some Request.reqDrain, Grant.complete, true⟩,
   ⟨"node2", "default", some Request.reqDrain, Grant.idle, false⟩]

/-- Three idle nodes of an uncapped custom pool, all requesting a drain. -/
def threeNodes : List CNode :=
  [⟨"node1", "workers", some Request.reqDrain, Grant.idle, false⟩,
   ⟨"node2", "workers", some Request.reqDrain, Grant.idle, false⟩,
   ⟨"node3", "workers", some Request.reqDrain, Grant.idle, false⟩]

/-- The cordon-correctness invariant of spec section 8: a node holding a
drain slot is unschedulable, and a node granted Idle is schedulable. -/
def cordonOk (s : List CNode) : Prop :=
  ∀ n ∈ s, (drainSet n.grant = true → n.unschedulable = true) ∧
    (n.grant = Grant.idle → n.unschedulable = false)

/-- A run in which node1 is admitted and then cancels (request back to Idle)
while the platform completeDrain hook is not yet ready. -/
def cancelRun : List Act :=
  [Act.setReq "node1" (some Request.reqDrain),
   Act.recEv "node1" ⟨false, false, true⟩,
   Act.setReq "node1" (some Request.reqIdle),
   Act.recEv "node1" ⟨false, false, false⟩]

/-- A clean drain cycle for node1 with always-ready hooks. -/
def cleanRun : List Act :=
  [Act.setReq "node1" (some Request.reqDrain),
   Act.recEv "node1" oAdmit,
   Act.recEv "node1" oDone]

theorem getAnno_setAnno_self (l : List (String × String)) (k v : String) :
    getAnno (setAnno l k v) k = some v := by
  induction l with
  | nil => simp [setAnno, getAnno]
  | cons p rest ih =>
    by_cases h : p.1 = k
    · simp [setAnno, getAnno, h]
    · simp [setAnno, getAnno, h, ih]

theorem getAnno_setAnno_ne (l : List (String × String)) (k v k' : String)
    (h : k' ≠ k) : getAnno (setAnno l k v) k' = getAnno l k' := by
  induction l with
  | nil =>
    simp only [setAnno, getAnno]
    rw [if_neg (fun hh => h hh.symm)]
  | cons p rest ih =>
    by_cases hp : p.1 = k
    · subst hp
      simp only [setAnno, if_pos rfl, getAnno]
      rw [if_neg (fun hh => h hh.symm), if_neg (fun hh => h hh.symm)]
    · simp [setAnno, getAnno, hp, ih]

/-! ## Claims about the event filter and AnnotateNode -/

/-- C1 counterexample: an update in which the old node carries the request
annotation and the new node has lost it changes the annotation's value in the
spec's sense (present to absent), yet `DrainAnnotationPredicate.Update`
rejects the event. -/
theorem C1_counterexample :
    specUpdateAccepts
        ⟨"node1", [(NodeDrainAnnoKey, DrainIdle)], [], false, []⟩
        ⟨"node1", [], [], false, []⟩ = true ∧
      drainPredUpdate
        (some ⟨"node1", [(NodeDrainAnnoKey, DrainIdle)], [], false, []⟩)
        (some ⟨"node1", [], [], false, []⟩) = false := by
  constructor <;> decide

/-- C1 (amended): for non-nil old and new objects, the update filter accepts
the event iff both objects carry the request annotation key and the two
values differ; an event in which the annotation is absent on either side, or
whose value did not change, is rejected. -/
theorem C1_update_filter_iff (o n : K8Node) :
    drainPredUpdate (some o) (some n) = true ↔
      ∃ a b, getAnno o.annos NodeDrainAnnoKey = some a ∧
        getAnno n.annos NodeDrainAnnoKey = some b ∧ a ≠ b := by
  cases ho : getAnno o.annos NodeDrainAnnoKey with
  | none => simp [drainPredUpdate, ho]
  | some a =>
    cases hn : getAnno n.annos NodeDrainAnnoKey with
    | none => simp [drainPredUpdate, ho, hn]
    | some b =>
      simp [drainPredUpdate, ho, hn, bne_iff_ne]

/-- C5: for every Node create event with a non-nil object, the create filter
accepts the event iff the node carries the request annotation key, regardless
of the annotation's value. -/
theorem C5_create_filter_iff (o : K8Node) :
    drainPredCreate (some o) = true ↔ (getAnno o.annos NodeDrainAnnoKey).isSome := by
  simp [drainPredCreate]

/-- C3: writing the request annotation is idempotent: if the node's request
annotation already equals the value, `AnnotateNode` issues no patch and
leaves the node unchanged; and a second application with the same value
issues no patch and leaves the state of the first application unchanged. -/
theorem C3_annotate_idempotent (node : K8Node) (value : String) :
    (getAnno node.annos NodeDrainAnnoKey = some value →
      annotateNode node value = (node, false)) ∧
      annotateNode (annotateNode node value).1 value =
        ((annotateNode node value).1, false) := by
  constructor
  · intro h
    simp [annotateNode, h]
  · by_cases h : ((getAnno node.annos NodeDrainAnnoKey).getD "") ≠ value
    · simp only [annotateNode, if_pos h]
      simp [getAnno_setAnno_self]
    · simp [annotateNode, if_neg h]

/-- C3 witness: on a node whose request annotation is already `Idle`,
annotating with `Idle` issues no patch and leaves the node unchanged. -/
theorem C3_annotate_idempotent_witness :
    annotateNode ⟨"node1", [(NodeDrainAnnoKey, DrainIdle)], [], false, []⟩ DrainIdle =
      (⟨"node1", [(NodeDrainAnnoKey, DrainIdle)], [], false, []⟩, false) :=
  (C3_annotate_idempotent ⟨"node1", [(NodeDrainAnnoKey, DrainIdle)], [], false, []⟩
    DrainIdle).1 (by decide)

/-- C10: frame condition of `AnnotateNode`: the node left in the store agrees
with the old node on the name, the labels, `spec.unschedulable`, the status,
and every annotation other than the request annotation key. -/
theorem C10_annotate_frame (node : K8Node) (value : String) :
    (annotateNode node value).1.name = node.name ∧
      (annotateNode node value).1.labels = node.labels ∧
      (annotateNode node value).1.unschedulable = node.unschedulable ∧
      (annotateNode node value).1.status = node.status ∧
      ∀ k, k ≠ NodeDrainAnnoKey →
        getAnno (annotateNode node value).1.annos k = getAnno node.annos k := by
  unfold annotateNode
  split
  · exact ⟨rfl, rfl, rfl, rfl, fun k hk =>
      getAnno_setAnno_ne node.annos NodeDrainAnnoKey value k hk⟩
  · exact ⟨rfl, rfl, rfl, rfl, fun k _ => rfl⟩

/-- C10 witness: annotating a concrete node changes neither its labels, nor
its unschedulable flag, nor an unrelated annotation key. -/
theorem C10_annotate_frame_witness :
    (annotateNode ⟨"node1", [("other", "x")], [("role", "worker")], true,
        [("phase", "Ready")]⟩ DrainRequired).1.labels = [("role", "worker")] ∧
      (annotateNode ⟨"node1", [("other", "x")], [("role", "worker")], true,
        [("phase", "Ready")]⟩ DrainRequired).1.unschedulable = true ∧
      getAnno (annotateNode ⟨"node1", [("other", "x")], [("role", "worker")], true,
        [("phase", "Ready")]⟩ DrainRequired).1.annos "other" = some "x" := by
  have h := C10_annotate_frame
    ⟨"node1", [("other", "x")], [("role", "worker")], true, [("phase", "Ready")]⟩
    DrainRequired
  refine ⟨h.2.1, h.2.2.1, ?_⟩
  rw [h.2.2.2.2 "other" (by decide)]
  decide

/-- C1 witness: on a concrete update whose request annotation value changed
from `Idle` to `Drain_Required` with the key present on both sides, the
amended characterization accepts the event. -/
theorem C1_update_filter_iff_witness :
    drainPredUpdate
      (some ⟨"node1", [(NodeDrainAnnoKey, DrainIdle)], [], false, []⟩)
      (some ⟨"node1", [(NodeDrainAnnoKey, DrainRequired)], [], false, []⟩) = true :=
  (C1_update_filter_iff
      ⟨"node1", [(NodeDrainAnnoKey, DrainIdle)], [], false, []⟩
      ⟨"node1", [(NodeDrainAnnoKey, DrainRequired)], [], false, []⟩).mpr
    ⟨DrainIdle, DrainRequired, by decide, by decide, by decide⟩

theorem noAnnoWrite_writeOk (e : Effect) (h : noAnnoWrite e = true) :
    writeOk e = true := by
  cases e <;> simp_all [noAnnoWrite, writeOk]

theorem vendorApply_noAnno (l : List PluginSim) :
    (vendorApply l).1.all noAnnoWrite = true := by
  induction l with
  | nil => simp [vendorApply]
  | cons p rest ih =>
    by_cases h1 : (p.pname == GenericPluginName || p.pname == VirtualPluginName) = true
    · simp [vendorApply, h1, ih]
    · by_cases h2 : p.applyFails
      · simp [vendorApply, h1, h2, noAnnoWrite]
      · simp [vendorApply, h1, h2, noAnnoWrite, ih]

theorem systemdStage_noAnno (i : SyncInput) (effs : List Effect) (d r : Bool)
    (h : effs.all noAnnoWrite = true) :
    (sideEffects (systemdStage i effs d r)).all noAnnoWrite = true := by
  unfold systemdStage
  repeat' split
  all_goals simp_all [sideEffects, noAnnoWrite, List.all_append]

theorem mainStage_noAnno (i : SyncInput) :
    (sideEffects (mainStage i)).all noAnnoWrite = true := by
  have hva := vendorApply_noAnno i.plugins
  unfold mainStage
  by_cases h1 : i.refetchFails = true
  · simp [h1, sideEffects, noAnnoWrite]
  · by_cases h2 : (i.pluginsEmpty && i.enablePluginsFails) = true
    · simp [h1, h2, sideEffects, noAnnoWrite]
    · cases hps : pluginScan i.plugins false false with
      | none => simp [h1, h2, hps, sideEffects, noAnnoWrite]
      | some dr =>
        have hsys := systemdStage_noAnno i [Effect.pushSyncStatus syncStatusInProgress]
          dr.1 dr.2 (by simp [noAnnoWrite])
        cases hss : systemdStage i [Effect.pushSyncStatus syncStatusInProgress] dr.1 dr.2 with
        | inl out =>
          rw [hss] at hsys
          simp only [sideEffects] at hsys
          simp [h1, h2, hps, hss, sideEffects, hsys]
        | inr st =>
          rw [hss] at hsys
          simp only [sideEffects] at hsys
          by_cases h3 : (vendorApply i.plugins).2 = true
          · simp [h1, h2, hps, hss, h3, sideEffects, List.all_append, hsys, hva]
          · simp [h1, h2, hps, hss, h3, sideEffects, List.all_append, hsys, hva]

theorem preGate_noAnno (i : SyncInput) :
    (sideEffects (preGate i)).all noAnnoWrite = true := by
  have hm := mainStage_noAnno i
  unfold preGate
  repeat' split
  all_goals
    first
      | rfl
      | exact hm
      | (simp only [sideEffects, notChangedExit]; split <;> rfl)

theorem all_noAnno_writeOk (l : List Effect) (h : l.all noAnnoWrite = true) :
    l.all writeOk = true := by
  induction l with
  | nil => rfl
  | cons e rest ih =>
    simp only [List.all_cons, Bool.and_eq_true] at h ⊢
    exact ⟨noAnnoWrite_writeOk e h.1, ih h.2⟩

theorem applyFinalPlugins_noAnno (i : SyncInput) :
    (applyFinalPlugins i).1.all noAnnoWrite = true := by
  unfold applyFinalPlugins
  repeat' split
  all_goals rfl

theorem postGate_writeOk (i : SyncInput) (rr : Bool) :
    (postGate i rr).effects.all writeOk = true := by
  have hf := all_noAnno_writeOk _ (applyFinalPlugins_noAnno i)
  unfold postGate
  by_cases hfp : (applyFinalPlugins i).2 = true
  all_goals repeat' split
  all_goals simp_all [List.all_append, writeOk, List.all_cons]

/-- C4: single-writer discipline on the agent side: on every execution path
of `nodeStateSyncHandler` (and of `applyDrainRequired`, which it calls),
every annotation write the daemon issues targets the Node object with the
request annotation key, the only values ever written there are
`Drain_Required` and `Drain_Idle`, and the grant annotation on the NodeState
object is never written. -/
theorem C4_daemon_single_writer (i : SyncInput) :
    (nodeStateSyncHandler i).effects.all writeOk = true := by
  have hpre := preGate_noAnno i
  unfold nodeStateSyncHandler
  cases hp : preGate i with
  | inl out =>
    rw [hp] at hpre
    simp only [sideEffects] at hpre
    exact all_noAnno_writeOk _ hpre
  | inr st =>
    rw [hp] at hpre
    simp only [sideEffects] at hpre
    have hpre2 := all_noAnno_writeOk _ hpre
    cases hg : drainGate i st.2.1 with
    | wait => simp only [hg]; simpa using hpre2
    | wroteRequired =>
      simp only [hg]
      simp [List.all_append, writeOk]
      simpa using hpre2
    | proceed =>
      have hpost := postGate_writeOk i st.2.2
      simp only [hg]
      simp [List.all_append]
      exact ⟨by simpa using hpre2, by simpa using hpost⟩

theorem grantAnno_eq_of_beq (i : SyncInput) (s : String)
    (h : (i.grantAnno == some s) = true) : i.grantAnno = some s := by
  cases hg : i.grantAnno with
  | none => rw [hg] at h; simp at h
  | some t =>
    rw [hg] at h
    simp only [beq_iff_eq, Option.some.injEq] at h
    rw [h]

theorem drainGate_wait_of_draining (i : SyncInput) (h : isNodeDraining i = true) :
    drainGate i true = GateDecision.wait := by
  have h0 : i.grantAnno = some Draining ∨ i.grantAnno = some DrainMcpPaused := by
    simpa [isNodeDraining] using h
  have h2 : (i.grantAnno == some DrainComplete) = false := by
    rcases h0 with h1 | h1 <;> rw [h1] <;> decide
  simp [drainGate, h, h2]

/-- C6 (amended): in any sync pass that reaches the drain gate with a drain
required, (a) if the grant annotation on the NodeState is Draining or
Draining_MCP_Paused, the handler returns successfully with no effect beyond
the pre-gate ones — it waits without applying configuration; (b) when
draining is not disabled, the gate lets the handler proceed only when the
grant annotation is DrainComplete; and (c) when draining is not disabled and
the grant is neither Draining, Draining_MCP_Paused nor DrainComplete, the
handler writes `Drain_Required` to the Node and stops.  (When draining is
disabled the handler instead falls through the gate, which is what refutes
the claim as stated.) -/
theorem C6_drain_gate_amended (i : SyncInput) (effs : List Effect) (rr : Bool)
    (hpre : preGate i = Sum.inr (effs, true, rr)) :
    (isNodeDraining i = true → nodeStateSyncHandler i = ⟨effs, false⟩) ∧
      (i.disableDrain = false → drainGate i true = GateDecision.proceed →
        i.grantAnno = some DrainComplete) ∧
      (i.disableDrain = false → isNodeDraining i = false →
        (i.grantAnno == some DrainComplete) = false →
        nodeStateSyncHandler i =
          ⟨effs ++ [Effect.annotate ObjKind.node NodeDrainAnnoKey DrainRequired],
            i.annotateFails⟩) := by
  refine ⟨?_, ?_, ?_⟩
  · intro h
    have hw := drainGate_wait_of_draining i h
    simp [nodeStateSyncHandler, hpre, hw]
  · intro hdis hproc
    by_cases hc : (i.grantAnno == some DrainComplete) = true
    · exact grantAnno_eq_of_beq i DrainComplete hc
    · exfalso
      rw [Bool.not_eq_true] at hc
      by_cases hnd : isNodeDraining i = true
      · rw [drainGate_wait_of_draining i hnd] at hproc
        exact GateDecision.noConfusion hproc
      · rw [Bool.not_eq_true] at hnd
        simp [drainGate, hc, hnd, hdis] at hproc
  · intro hdis hnd hc
    have hg : drainGate i true = GateDecision.wroteRequired := by
      simp [drainGate, hc, hnd, hdis]
    simp [nodeStateSyncHandler, hpre, hg]

/-- C6 counterexample: with draining disabled, a sync pass that requires a
drain while the grant annotation is DrainIdle (not DrainComplete) proceeds
past the drain gate and applies the generic-plugin configuration, without
waiting and without writing `Drain_Required`. -/
theorem C6_counterexample :
    (disableDrainInput.grantAnno == some DrainComplete) = false ∧
      nodeStateSyncHandler disableDrainInput =
        ⟨[Effect.pushSyncStatus syncStatusInProgress, Effect.applyGeneric,
          Effect.restartDevicePlugin,
          Effect.annotate ObjKind.node NodeDrainAnnoKey DrainIdle,
          Effect.pushSyncStatus syncStatusSucceeded], false⟩ := by
  constructor <;> decide

/-- C6 witness: on a concrete drain-requiring pass whose grant is Draining,
the handler returns successfully having only reported InProgress. -/
theorem C6_drain_gate_amended_witness :
    nodeStateSyncHandler waitingInput =
      ⟨[Effect.pushSyncStatus syncStatusInProgress], false⟩ :=
  (C6_drain_gate_amended waitingInput [Effect.pushSyncStatus syncStatusInProgress] false
    (by decide)).1 (by decide)

theorem mlxLoopRun_early_drain_eq (steps : List MlxNicStep) (nr d r : Bool)
    (h : mlxLoopRun steps nr = MlxLoopResult.earlyReturn d r) : d = r := by
  induction steps generalizing nr with
  | nil => simp [mlxLoopRun] at h
  | cons step rest ih =>
    rw [mlxLoopRun] at h
    by_cases h1 : step.fwDataErr = true
    · rw [if_pos h1] at h
      injection h with hd hr
      rw [← hd, ← hr]
    · rw [if_neg h1] at h
      by_cases h2 :
          (step.externallyManaged && (step.totalVfsReboot || step.sriovEnReboot)) = true
      · rw [if_pos h2] at h
        injection h with hd hr
        rw [← hd, ← hr]
      · rw [if_neg h2] at h
        cases h3 : step.linkTypeRes with
        | none =>
          rw [h3] at h
          injection h with hd hr
          rw [← hd, ← hr]
        | some link =>
          rw [h3] at h
          exact ih _ h

/-- C9: for both vendor plugins in the repository, `OnNodeStateChange` never
reports `needReboot = true` without also reporting `needDrain = true`. -/
theorem C9_reboot_implies_drain (needDrainRes : Bool)
    (syncKargsRes writeSwitchdevRes : Option Bool)
    (lockdown specNonEmpty : Bool) (steps : List MlxNicStep) (zeroVfsErr : Bool) :
    ((genericOnNodeStateChange needDrainRes syncKargsRes writeSwitchdevRes).2.1 = true →
      (genericOnNodeStateChange needDrainRes syncKargsRes writeSwitchdevRes).1 = true) ∧
      ((mellanoxOnNodeStateChange lockdown specNonEmpty steps zeroVfsErr).2.1 = true →
        (mellanoxOnNodeStateChange lockdown specNonEmpty steps zeroVfsErr).1 = true) := by
  constructor
  · intro h
    unfold genericOnNodeStateChange at h ⊢
    cases hr : needRebootNode syncKargsRes writeSwitchdevRes with
    | none => simp_all
    | some r => simp_all
  · intro h
    unfold mellanoxOnNodeStateChange at h ⊢
    by_cases hl : lockdown = true
    · rw [if_pos hl] at h ⊢
      by_cases hs : specNonEmpty = true
      · rw [if_pos hs] at h
        simp at h
      · rw [if_neg hs] at h
        simp at h
    · rw [if_neg hl] at h ⊢
      cases hrun : mlxLoopRun steps false with
      | earlyReturn d r =>
        rw [hrun] at h
        simp at h ⊢
        rw [mlxLoopRun_early_drain_eq steps false d r hrun]
        exact h
      | done nr =>
        simp only [hrun] at h ⊢
        by_cases hz : zeroVfsErr = true
        · rw [if_pos hz] at h
          simp at h
        · rw [if_neg hz] at h ⊢
          simp_all

/-- C9 witness: a generic-plugin pass whose kernel-argument sync demands a
node update reports needReboot, hence needDrain; a mellanox pass whose
HandleTotalVfs demands a reboot likewise reports both. -/
theorem C9_reboot_implies_drain_witness :
    (genericOnNodeStateChange false (some true) (some false)).1 = true ∧
      (mellanoxOnNodeStateChange false false
        [⟨false, true, false, false, false, false, some false⟩] false).1 = true := by
  constructor
  · exact (C9_reboot_implies_drain false (some true) (some false) false false [] false).1
      (by decide)
  · exact (C9_reboot_implies_drain false (some true) (some false) false false
      [⟨false, true, false, false, false, false, some false⟩] false).2 (by decide)

theorem findNode_mem (s : List CNode) (nm : String) (n : CNode)
    (h : findNode s nm = some n) : n ∈ s := by
  induction s with
  | nil => simp [findNode] at h
  | cons x rest ih =>
    rw [findNode] at h
    by_cases hx : x.name = nm
    · rw [if_pos hx] at h
      injection h with hn
      rw [← hn]
      exact List.mem_cons_self x rest
    · rw [if_neg hx] at h
      exact List.mem_cons_of_mem x (ih h)

theorem mem_updateNode (s : List CNode) (nm : String) (f : CNode → CNode) (x : CNode)
    (hx : x ∈ updateNode s nm f) : x ∈ s ∨ ∃ n, n ∈ s ∧ x = f n := by
  induction s with
  | nil => simp [updateNode] at hx
  | cons y rest ih =>
    rw [updateNode] at hx
    by_cases hy : y.name = nm
    · rw [if_pos hy] at hx
      rcases List.mem_cons.mp hx with h1 | h1
      · exact Or.inr ⟨y, List.mem_cons_self y rest, h1⟩
      · exact Or.inl (List.mem_cons_of_mem y h1)
    · rw [if_neg hy] at hx
      rcases List.mem_cons.mp hx with h1 | h1
      · exact Or.inl (h1 ▸ List.mem_cons_self y rest)
      · rcases ih h1 with h2 | ⟨n, hn, he⟩
        · exact Or.inl (List.mem_cons_of_mem y h2)
        · exact Or.inr ⟨n, List.mem_cons_of_mem y hn, he⟩

theorem countP_updateNode (s : List CNode) (nm : String) (f : CNode → CNode)
    (q : CNode → Bool) (n : CNode) (h : findNode s nm = some n) :
    (updateNode s nm f).countP q + (if q n then 1 else 0) =
      s.countP q + (if q (f n) then 1 else 0) := by
  induction s with
  | nil => simp [findNode] at h
  | cons x rest ih =>
    rw [findNode] at h
    by_cases hx : x.name = nm
    · rw [if_pos hx] at h
      injection h with hn
      rw [← hn]
      rw [updateNode, if_pos hx]
      simp only [List.countP_cons]
      cases hq1 : q x <;> cases hq2 : q (f x) <;> simp [hq1, hq2]
    · rw [if_neg hx] at h
      rw [updateNode, if_neg hx]
      simp only [List.countP_cons]
      have := ih h
      cases hq1 : q x <;> simp [hq1] <;> omega

theorem findNode_updateNode_self (s : List CNode) (nm : String) (f : CNode → CNode)
    (hf : ∀ n, (f n).name = n.name) :
    findNode (updateNode s nm f) nm = Option.map f (findNode s nm) := by
  induction s with
  | nil => rfl
  | cons x rest ih =>
    by_cases hx : x.name = nm
    · rw [updateNode, if_pos hx, findNode, if_pos ((hf x).trans hx), findNode, if_pos hx]
      rfl
    · rw [updateNode, if_neg hx, findNode, if_neg hx, findNode, if_neg hx]
      exact ih

theorem findNode_updateNode_other (s : List CNode) (nm nm' : String) (f : CNode → CNode)
    (hf : ∀ n, (f n).name = n.name) (hne : nm' ≠ nm) :
    findNode (updateNode s nm f) nm' = findNode s nm' := by
  induction s with
  | nil => rfl
  | cons x rest ih =>
    by_cases hx : x.name = nm
    · have hxne : ¬ x.name = nm' := fun hh => hne (hh ▸ hx ▸ rfl)
      rw [updateNode, if_pos hx, findNode, findNode, if_neg hxne,
        if_neg (fun hh => hxne ((hf x) ▸ hh))]
    · rw [updateNode, if_neg hx, findNode, findNode]
      by_cases hx2 : x.name = nm'
      · rw [if_pos hx2, if_pos hx2]
      · rw [if_neg hx2, if_neg hx2]
        exact ih

theorem applyStep_enter_admitted (a : Bool) (o : Oracle) (n : CNode)
    (h1 : drainSet n.grant = false)
    (h2 : drainSet (applyStep a o n).grant = true) : a = true := by
  cases a
  · exfalso
    have hg : n.grant = Grant.idle := by
      cases hgg : n.grant <;> rw [hgg] at h1 <;> simp [drainSet] at h1
    unfold applyStep stepGU at h2
    rw [hg] at h2
    by_cases hr : requestsDrain n.request = true <;> simp [hr, drainSet] at h2
  · rfl

theorem reconcile_capOk (caps : String → Option Nat) (s : List CNode) (nm : String)
    (o : Oracle) (h : capOk caps s) : capOk caps (reconcile caps s nm o) := by
  intro p m hm
  cases hf : findNode s nm with
  | none =>
    have hrec : reconcile caps s nm o = s := by
      unfold reconcile
      rw [hf]
    rw [hrec]
    exact h p m hm
  | some n =>
    have hrec : reconcile caps s nm o =
        updateNode s nm (applyStep (admitOk caps s n.pool) o) := by
      unfold reconcile
      rw [hf]
    rw [hrec]
    have hcount := countP_updateNode s nm (applyStep (admitOk caps s n.pool) o)
      (fun x => (x.pool == p) && drainSet x.grant) n hf
    have hle := h p m hm
    unfold drainCount at hle ⊢
    by_cases hq2 : (((applyStep (admitOk caps s n.pool) o n).pool == p) &&
        drainSet (applyStep (admitOk caps s n.pool) o n).grant) = true
    · by_cases hq1 : ((n.pool == p) && drainSet n.grant) = true
      · simp only [hq1, hq2, if_true] at hcount
        omega
      · -- the node enters the drain set: admission must have been granted
        have hpoolp : (n.pool == p) = true := by
          have hsame : (applyStep (admitOk caps s n.pool) o n).pool = n.pool := rfl
          rw [hsame] at hq2
          exact (Bool.and_eq_true_iff.mp hq2).1
        have hds : drainSet n.grant = false := by
          cases hdd : drainSet n.grant
          · rfl
          · exfalso
            apply hq1
            rw [hpoolp, hdd]
            rfl
        have hadm := applyStep_enter_admitted (admitOk caps s n.pool) o n hds
          (Bool.and_eq_true_iff.mp hq2).2
        have hpe : n.pool = p := by simpa using hpoolp
        rw [hpe, admitOk, hm] at hadm
        have hlt : drainCount s p < m := by simpa using hadm
        unfold drainCount at hlt
        have hq1f : ((n.pool == p) && drainSet n.grant) = false := by
          cases hval : ((n.pool == p) && drainSet n.grant)
          · rfl
          · exact absurd hval hq1
        simp [hq1f, hq2] at hcount
        omega
    · have hq2f : (((applyStep (admitOk caps s n.pool) o n).pool == p) &&
          drainSet (applyStep (admitOk caps s n.pool) o n).grant) = false := by
        cases hval : (((applyStep (admitOk caps s n.pool) o n).pool == p) &&
            drainSet (applyStep (admitOk caps s n.pool) o n).grant)
        · rfl
        · exact absurd hval hq2
      simp only [hq2f, if_false] at hcount
      cases hq1 : ((n.pool == p) && drainSet n.grant) <;>
        simp [hq1] at hcount <;> omega

theorem countP_updateNode_congr (s : List CNode) (nm : String) (f : CNode → CNode)
    (q : CNode → Bool) (hq : ∀ x, q (f x) = q x) :
    (updateNode s nm f).countP q = s.countP q := by
  induction s with
  | nil => rfl
  | cons x rest ih =>
    rw [updateNode]
    by_cases hx : x.name = nm
    · rw [if_pos hx]
      simp only [List.countP_cons, hq x]
    · rw [if_neg hx]
      simp only [List.countP_cons, ih]

theorem applyAct_capOk (caps : String → Option Nat) (s : List CNode) (a : Act)
    (h : capOk caps s) : capOk caps (applyAct caps s a) := by
  cases a with
  | recEv nm o => exact reconcile_capOk caps s nm o h
  | setReq nm r =>
    intro p m hm
    have heq : drainCount (applyAct caps s (Act.setReq nm r)) p = drainCount s p := by
      unfold applyAct drainCount
      exact countP_updateNode_congr s nm (fun n => { n with request := r })
        (fun x => (x.pool == p) && drainSet x.grant) (fun x => rfl)
    rw [heq]
    exact h p m hm

theorem runActs_capOk (caps : String → Option Nat) (acts : List Act) :
    ∀ s, capOk caps s → capOk caps (runActs caps s acts) := by
  induction acts with
  | nil => intro s h; exact h
  | cons a rest ih =>
    intro s h
    exact ih (applyAct caps s a) (applyAct_capOk caps s a h)

theorem capOk_of_allIdle (caps : String → Option Nat) (s : List CNode)
    (h0 : ∀ n ∈ s, n.grant = Grant.idle) : capOk caps s := by
  intro p m hm
  have hz : drainCount s p = 0 := by
    unfold drainCount
    rw [List.countP_eq_zero]
    intro n hn
    rw [h0 n hn]
    simp [drainSet]
  omega

/-- C2 (spec-modelled): along every event sequence from an all-Idle fleet,
every capped pool holds at most MaxUnavailable nodes whose grant is
Draining, DrainMcpPaused or DrainComplete; and a reconcile of a node whose
grant is Idle while its pool's slot count is not strictly below the cap
leaves the grant Idle (the request is not admitted). -/
theorem C2_concurrency_cap (caps : String → Option Nat) (s0 : List CNode)
    (acts : List Act) (p : String) (m : Nat)
    (h0 : ∀ n ∈ s0, n.grant = Grant.idle) (hm : caps p = some m)
    (s : List CNode) (nm : String) (o : Oracle) (n : CNode) (m2 : Nat)
    (hfind : findNode s nm = some n) (hidle : n.grant = Grant.idle)
    (hcap : caps n.pool = some m2) (hsat : ¬ drainCount s n.pool < m2) :
    drainCount (runActs caps s0 acts) p ≤ m ∧
      Option.map (fun x => x.grant) (findNode (reconcile caps s nm o) nm) =
        some Grant.idle := by
  constructor
  · exact runActs_capOk caps acts s0 (capOk_of_allIdle caps s0 h0) p m hm
  · have hadm : admitOk caps s n.pool = false := by
      rw [admitOk, hcap]
      simpa using hsat
    have hrec : reconcile caps s nm o =
        updateNode s nm (applyStep (admitOk caps s n.pool) o) := by
      unfold reconcile
      rw [hfind]
    rw [hrec,
      findNode_updateNode_self s nm (applyStep (admitOk caps s n.pool) o) (fun x => rfl),
      hfind]
    simp only [Option.map]
    have hgr : (applyStep (admitOk caps s n.pool) o n).grant = Grant.idle := by
      unfold applyStep stepGU
      rw [hidle, hadm]
      by_cases hr : requestsDrain n.request = true <;> simp [hr, drainSet]
    rw [hgr]

/-- C2 witness: with the default pool capped at 1, a run that admits and
completes node1 and then reconciles node2 keeps at most one slot used, and
reconciling node2 against the saturated fleet leaves its grant Idle. -/
theorem C2_concurrency_cap_witness :
    drainCount (runActs capsOne twoNodes
        [Act.recEv "node1" oAdmit, Act.recEv "node1" oDone, Act.recEv "node2" oAdmit])
        "default" ≤ 1 ∧
      Option.map (fun x => x.grant)
          (findNode (reconcile capsOne saturatedState "node2" oAdmit) "node2") =
        some Grant.idle :=
  C2_concurrency_cap capsOne twoNodes
    [Act.recEv "node1" oAdmit, Act.recEv "node1" oDone, Act.recEv "node2" oAdmit]
    "default" 1 (by decide) rfl saturatedState "node2" oAdmit
    ⟨"node2", "default", some Request.reqDrain, Grant.idle, false⟩ 1
    (by decide) rfl rfl (by decide)

theorem runActs_append (caps : String → Option Nat) (acts1 acts2 : List Act) :
    ∀ s, runActs caps s (acts1 ++ acts2) = runActs caps (runActs caps s acts1) acts2 := by
  induction acts1 with
  | nil => intro s; rfl
  | cons a rest ih =>
    intro s
    rw [List.cons_append, runActs, runActs]
    exact ih _

theorem capsFree_applyAct (caps : String → Option Nat) (t : List CNode) (a : Act)
    (hfree : ∀ n ∈ t, caps n.pool = none) :
    ∀ n ∈ applyAct caps t a, caps n.pool = none := by
  intro n hn
  cases a with
  | setReq nm r =>
    rcases mem_updateNode t nm (fun x => { x with request := r }) n hn with
      hmem | ⟨n0, hn0, he⟩
    · exact hfree n hmem
    · rw [he]
      exact hfree n0 hn0
  | recEv nm o =>
    have hn2 : n ∈ reconcile caps t nm o := hn
    cases hf : findNode t nm with
    | none =>
      have he : reconcile caps t nm o = t := by
        unfold reconcile
        rw [hf]
      rw [he] at hn2
      exact hfree n hn2
    | some n2 =>
      have he : reconcile caps t nm o =
          updateNode t nm (applyStep (admitOk caps t n2.pool) o) := by
        unfold reconcile
        rw [hf]
      rw [he] at hn2
      rcases mem_updateNode t nm _ n hn2 with hmem | ⟨n0, hn0, he2⟩
      · exact hfree n hmem
      · rw [he2]
        exact hfree n0 hn0

theorem applyAct_cons_skip (caps : String → Option Nat) (y : CNode) (t : List CNode)
    (a : Act) (hname : actName a ≠ y.name) (hfree : ∀ n ∈ t, caps n.pool = none) :
    applyAct caps (y :: t) a = y :: applyAct caps t a := by
  cases a with
  | setReq nm r =>
    have hny : ¬ y.name = nm := fun hh => hname hh.symm
    show updateNode (y :: t) nm _ = y :: updateNode t nm _
    rw [updateNode, if_neg hny]
  | recEv nm o =>
    have hny : ¬ y.name = nm := fun hh => hname hh.symm
    show reconcile caps (y :: t) nm o = y :: reconcile caps t nm o
    cases hf : findNode t nm with
    | none =>
      have h1 : findNode (y :: t) nm = none := by
        rw [findNode, if_neg hny]
        exact hf
      have e1 : reconcile caps (y :: t) nm o = y :: t := by
        unfold reconcile
        rw [h1]
      have e2 : reconcile caps t nm o = t := by
        unfold reconcile
        rw [hf]
      rw [e1, e2]
    | some n2 =>
      have h1 : findNode (y :: t) nm = some n2 := by
        rw [findNode, if_neg hny]
        exact hf
      have hcap : caps n2.pool = none := hfree n2 (findNode_mem t nm n2 hf)
      have ha1 : admitOk caps (y :: t) n2.pool = true := by
        rw [admitOk, hcap]
      have ha2 : admitOk caps t n2.pool = true := by
        rw [admitOk, hcap]
      have e1 : reconcile caps (y :: t) nm o =
          updateNode (y :: t) nm (applyStep (admitOk caps (y :: t) n2.pool) o) := by
        unfold reconcile
        rw [h1]
      have e2 : reconcile caps t nm o =
          updateNode t nm (applyStep (admitOk caps t n2.pool) o) := by
        unfold reconcile
        rw [hf]
      rw [e1, e2, ha1, ha2, updateNode, if_neg hny]

theorem runActs_cons_skip (caps : String → Option Nat) (y : CNode) :
    ∀ (acts : List Act) (t : List CNode),
      (∀ a ∈ acts, actName a ≠ y.name) →
      (∀ n ∈ t, caps n.pool = none) →
      runActs caps (y :: t) acts = y :: runActs caps t acts := by
  intro acts
  induction acts with
  | nil =>
    intro t _ _
    rfl
  | cons a rest ih =>
    intro t hnames hfree
    rw [runActs, runActs,
      applyAct_cons_skip caps y t a (hnames a (List.mem_cons_self a rest)) hfree]
    exact ih (applyAct caps t a) (fun b hb => hnames b (List.mem_cons_of_mem a hb))
      (capsFree_applyAct caps t a hfree)

theorem run_drainAll (caps : String → Option Nat) (o : Oracle) :
    ∀ s : List CNode, (∀ n ∈ s, caps n.pool = none) →
      (s.map (fun n => n.name)).Nodup →
      runActs caps s (s.map (fun n => Act.recEv n.name o)) =
        s.map (applyStep true o) := by
  intro s
  induction s with
  | nil =>
    intro _ _
    rfl
  | cons x rest ih =>
    intro hfree hnodup
    rw [List.map_cons, List.map_cons, runActs]
    have h1 : findNode (x :: rest) x.name = some x := by
      rw [findNode, if_pos rfl]
    have ha : admitOk caps (x :: rest) x.pool = true := by
      rw [admitOk, hfree x (List.mem_cons_self x rest)]
    have hx : applyAct caps (x :: rest) (Act.recEv x.name o) =
        applyStep true o x :: rest := by
      show reconcile caps (x :: rest) x.name o = _
      have e1 : reconcile caps (x :: rest) x.name o =
          updateNode (x :: rest) x.name (applyStep (admitOk caps (x :: rest) x.pool) o) := by
        unfold reconcile
        rw [h1]
      rw [e1, ha, updateNode, if_pos rfl]
    rw [hx]
    have hnotin : x.name ∉ rest.map (fun n => n.name) := (List.nodup_cons.mp hnodup).1
    have hfree2 : ∀ n ∈ rest, caps n.pool = none :=
      fun n hn => hfree n (List.mem_cons_of_mem x hn)
    have hnames : ∀ a ∈ rest.map (fun n => Act.recEv n.name o),
        actName a ≠ (applyStep true o x).name := by
      intro a ha2
      rcases List.mem_map.mp ha2 with ⟨n0, hn0, rfl⟩
      intro hcontra
      apply hnotin
      have hxx : n0.name = x.name := hcontra
      rw [← hxx]
      exact List.mem_map_of_mem (fun n => n.name) hn0
    rw [runActs_cons_skip caps (applyStep true o x)
      (rest.map (fun n => Act.recEv n.name o)) rest hnames hfree2]
    rw [ih hfree2 (List.nodup_cons.mp hnodup).2]

theorem applyStep_twice_complete (o1 o2 : Oracle) (n : CNode)
    (hreq : requestsDrain n.request = true) (hidle : n.grant = Grant.idle)
    (hdone : o2.drainDone = true) :
    (applyStep true o2 (applyStep true o1 n)).grant = Grant.complete ∧
      (applyStep true o2 (applyStep true o1 n)).unschedulable = true := by
  have h1 : applyStep true o1 n =
      { n with grant := if o1.poolPaused then Grant.mcpPaused else Grant.draining,
               unschedulable := true } := by
    unfold applyStep stepGU
    rw [hidle]
    simp [hreq]
  rw [h1]
  unfold applyStep stepGU
  by_cases hp : o1.poolPaused = true <;> simp [hreq, hp, hdone]

/-- C7 (spec-modelled): when MaxUnavailable is unset for the pools of a
fleet, there is no concurrency cap: from any state in which every node
requests a drain with an Idle grant, the run that reconciles every node once
(admission) and then once more with the drainer reporting completion ends
with every node at grant DrainComplete and unschedulable=true — all of them
concurrently. -/
theorem C7_unset_max_unavailable (caps : String → Option Nat) (s : List CNode)
    (o1 o2 : Oracle)
    (hfree : ∀ n ∈ s, caps n.pool = none)
    (hnodup : (s.map (fun n => n.name)).Nodup)
    (hreq : ∀ n ∈ s, requestsDrain n.request = true ∧ n.grant = Grant.idle)
    (hdone : o2.drainDone = true) :
    ∀ x ∈ runActs caps s
        (s.map (fun n => Act.recEv n.name o1) ++ s.map (fun n => Act.recEv n.name o2)),
      x.grant = Grant.complete ∧ x.unschedulable = true := by
  intro x hx
  rw [runActs_append caps _ _ s] at hx
  rw [run_drainAll caps o1 s hfree hnodup] at hx
  have hfree1 : ∀ n ∈ s.map (applyStep true o1), caps n.pool = none := by
    intro n hn
    rcases List.mem_map.mp hn with ⟨n0, hn0, rfl⟩
    exact hfree n0 hn0
  have hnodup1 : ((s.map (applyStep true o1)).map (fun n => n.name)).Nodup := by
    rw [List.map_map]
    exact hnodup
  have hsched : (s.map (fun n => Act.recEv n.name o2)) =
      (s.map (applyStep true o1)).map (fun n => Act.recEv n.name o2) := by
    rw [List.map_map]
    rfl
  rw [hsched, run_drainAll caps o2 (s.map (applyStep true o1)) hfree1 hnodup1,
    List.map_map] at hx
  rcases List.mem_map.mp hx with ⟨n0, hn0, rfl⟩
  exact applyStep_twice_complete o1 o2 n0 (hreq n0 hn0).1 (hreq n0 hn0).2 hdone

/-- C7 witness: in the three-node uncapped pool, after the admission round
and the completion round node1 is at DrainComplete and unschedulable (and by
the same theorem so are node2 and node3, concurrently). -/
theorem C7_unset_max_unavailable_witness :
    (⟨"node1", "workers", some Request.reqDrain, Grant.complete, true⟩ : CNode).grant =
        Grant.complete ∧
      (⟨"node1", "workers", some Request.reqDrain, Grant.complete, true⟩ : CNode).unschedulable =
        true :=
  C7_unset_max_unavailable capsNone threeNodes oAdmit oDone (by decide) (by decide)
    (by decide) (by decide)
    ⟨"node1", "workers", some Request.reqDrain, Grant.complete, true⟩ (by decide)

theorem stepGU_cordon (a : Bool) (o : Oracle) (r : Option Request) (g : Grant) (u : Bool)
    (hcr : o.completeReady = true)
    (h1 : drainSet g = true → u = true) (h2 : g = Grant.idle → u = false) :
    (drainSet (stepGU a o r g u).1 = true → (stepGU a o r g u).2 = true) ∧
      ((stepGU a o r g u).1 = Grant.idle → (stepGU a o r g u).2 = false) := by
  unfold stepGU
  by_cases hr : requestsDrain r = true
  · cases g with
    | idle =>
      cases a
      · simp [hr, drainSet, h2 rfl]
      · by_cases hp : o.poolPaused = true <;> simp [hr, hp, drainSet]
    | draining =>
      by_cases hd : o.drainDone = true <;> simp [hr, hd, drainSet, h1 rfl]
    | mcpPaused =>
      by_cases hd : o.drainDone = true <;> simp [hr, hd, drainSet, h1 rfl]
    | complete => simp [hr, drainSet, h1 rfl]
  · cases g with
    | idle => simp [hr, drainSet]
    | draining => simp [hr, hcr, drainSet]
    | mcpPaused => simp [hr, hcr, drainSet]
    | complete => simp [hr, hcr, drainSet]

theorem applyAct_cordonOk (caps : String → Option Nat) (s : List CNode) (a : Act)
    (hready : actReady a = true) (h : cordonOk s) : cordonOk (applyAct caps s a) := by
  cases a with
  | setReq nm r =>
    intro x hx
    rcases mem_updateNode s nm (fun n => { n with request := r }) x hx with
      hmem | ⟨n0, hn0, he⟩
    · exact h x hmem
    · rw [he]
      exact h n0 hn0
  | recEv nm o =>
    have hcr : o.completeReady = true := hready
    intro x hx
    have hx2 : x ∈ reconcile caps s nm o := hx
    cases hf : findNode s nm with
    | none =>
      have he : reconcile caps s nm o = s := by
        unfold reconcile
        rw [hf]
      rw [he] at hx2
      exact h x hx2
    | some n =>
      have he : reconcile caps s nm o =
          updateNode s nm (applyStep (admitOk caps s n.pool) o) := by
        unfold reconcile
        rw [hf]
      rw [he] at hx2
      rcases mem_updateNode s nm _ x hx2 with hmem | ⟨n0, hn0, he2⟩
      · exact h x hmem
      · rw [he2]
        exact stepGU_cordon (admitOk caps s n.pool) o n0.request n0.grant
          n0.unschedulable hcr (h n0 hn0).1 (h n0 hn0).2

theorem runActs_cordonOk (caps : String → Option Nat) (acts : List Act) :
    ∀ s, (∀ a ∈ acts, actReady a = true) → cordonOk s →
      cordonOk (runActs caps s acts) := by
  induction acts with
  | nil =>
    intro s _ h
    exact h
  | cons a rest ih =>
    intro s hready h
    exact ih (applyAct caps s a)
      (fun b hb => hready b (List.mem_cons_of_mem a hb))
      (applyAct_cordonOk caps s a (hready a (List.mem_cons_self a rest)) h)

/-- C8 (amended, spec-modelled): along every event sequence from an all-Idle
schedulable fleet in which every reconcile's completeDrain hook reports
ready (the no-op platform adapter of spec section 4.5), every reachable
state satisfies cordon correctness: a node whose grant is Draining,
DrainMcpPaused or DrainComplete has unschedulable=true, and a node whose
grant is Idle has unschedulable=false (so the uncordon has already happened
whenever the grant returns to Idle).  Without the hook-readiness condition a
cancelled drain is uncordoned while its grant is still Draining, which is
what refutes the claim as stated. -/
theorem C8_cordon_correct (caps : String → Option Nat) (s0 : List CNode) (acts : List Act)
    (h0 : ∀ n ∈ s0, n.grant = Grant.idle ∧ n.unschedulable = false)
    (hready : ∀ a ∈ acts, actReady a = true) :
    ∀ n ∈ runActs caps s0 acts,
      (drainSet n.grant = true → n.unschedulable = true) ∧
        (n.grant = Grant.idle → n.unschedulable = false) := by
  have hc0 : cordonOk s0 := by
    intro n hn
    constructor
    · intro hds
      rw [(h0 n hn).1] at hds
      simp [drainSet] at hds
    · intro _
      exact (h0 n hn).2
  exact runActs_cordonOk caps acts s0 hready hc0

/-- C8 counterexample: from a clean one-node fleet, cancelling a drain while
the completeDrain hook is not ready reaches a state whose grant is Draining
while the node is already schedulable again — the claimed invariant
`grant ∈ \x7bDraining, DrainMcpPaused, DrainComplete\x7d ⇒ unschedulable` fails. -/
theorem C8_counterexample :
    Option.map (fun x => (x.grant, x.unschedulable))
        (findNode (runActs capsOne
          [⟨"node1", "default", some Request.reqIdle, Grant.idle, false⟩] cancelRun)
          "node1") =
      some (Grant.draining, false) := by
  decide

/-- C8 witness: the node reached by a clean drain cycle satisfies both
cordon-correctness implications. -/
theorem C8_cordon_correct_witness :
    (drainSet (⟨"node1", "default", some Request.reqDrain, Grant.complete, true⟩ :
        CNode).grant = true →
      (⟨"node1", "default", some Request.reqDrain, Grant.complete, true⟩ :
        CNode).unschedulable = true) ∧
      ((⟨"node1", "default", some Request.reqDrain, Grant.complete, true⟩ :
          CNode).grant = Grant.idle →
        (⟨"node1", "default", some Request.reqDrain, Grant.complete, true⟩ :
          CNode).unschedulable = false) :=
  C8_cordon_correct capsOne
    [⟨"node1", "default", some Request.reqIdle, Grant.idle, false⟩]
    cleanRun (by decide) (by decide)
    ⟨"node1", "default", some Request.reqDrain, Grant.complete, true⟩ (by decide)

end SriovDrain
